import Mathlib

/-!
Verification of the nativescript-component repository.

The repository is a thin controller layer over the NativeScript view/binding
model.  The active code consists of the transpiled `Component` class
(src/unnamed/part_001, first module) and the ES6 `ComponentManager`
(src/src/ComponentManager.js) together with src/src/component-utils.js.

This file gives a shallow embedding of the parts of that code the claims
C1..C10 are about:

* `JSVal`, `Store` — JavaScript values and plain key→value stores; NativeScript
  `Observable` objects are modelled through the collaborator contract of the
  spec (a key→value store reachable through `get`/`set`), since the host
  framework is external to the repository.
* namespace `Component` — the data-binding side of the `Component` class:
  `set`, `get`, `_validateBindingContext`, `_setNewBindingContextIfNeeded`,
  the XML-attribute resolution loop of `init`, `_setNavigationContextProperties`,
  `onShownModally` and `navigate`.  Binding contexts live in a heap of
  references so that the identity (`===`) comparisons of the source are
  modelled by reference equality, and so that a context shared between a
  view and its parent is one object.
* namespace `PageLoaded` — an operational model of `_callPageLoadedHook`,
  `_onPageLoaded` and the monkey-patching of an ancestor hook, restricted to
  the two-component tree used to exhibit the behaviour of that code.
* namespace `Manager` — the `ComponentManager` registry: `_addNewComponent`,
  the init-hook proxy, the plain method proxy, and the `unloaded` handler.
-/

/-- Pointwise update of a function, used for heap and table writes. -/
def fupd {α : Type} (f : Nat → α) (k : Nat) (v : α) : Nat → α :=
  fun x => if x = k then v else f x

/-- JavaScript values, as far as the claims need them.  Objects are structural
field lists; the code only moves them around opaquely or enumerates their own
enumerable properties with `for..in`. -/
inductive JSVal where
  | undef
  | null
  | bool (b : Bool)
  | num (n : Int)
  | str (s : String)
  | obj (fields : List (String × JSVal))

/-- JavaScript truthiness (`NaN` is not representable with `Int` numbers and is
not used by the code paths under verification). -/
def JSVal.truthy : JSVal → Bool
  | .undef => false
  | .null => false
  | .bool b => b
  | .num n => n != 0
  | .str s => s != ""
  | .obj _ => true

/-- JavaScript `a || b` restricted to value results. -/
def jsOr (a b : JSVal) : JSVal :=
  if a.truthy then a else b

/-- A plain key→value store: the common shape behind both a NativeScript
`Observable` (accessed through its `get`/`set` functions) and a plain object
(accessed through property reads/assignments). -/
abbrev Store := List (String × JSVal)

/-- Property read: the stored value, or `undefined` when absent (JavaScript
property access on a missing key). -/
def storeGet : Store → String → JSVal
  | [], _ => .undef
  | (k, v) :: rest, name => if k == name then v else storeGet rest name

/-- Property write: overwrite the existing entry or append a new one
(JavaScript property assignment / `Observable.set`). -/
def storeSet : Store → String → JSVal → Store
  | [], name, value => [(name, value)]
  | (k, v) :: rest, name, value =>
      if k == name then (name, value) :: rest else (k, v) :: storeSet rest name value

/-- Substring containment, the semantics of JavaScript
`String.prototype.includes`: `prefChars pat s` is `pat` being a prefix of `s`. -/
def prefChars : List Char → List Char → Bool
  | [], _ => true
  | _ :: _, [] => false
  | p :: ps, c :: cs => p == c && prefChars ps cs

/-- Predicate `infixChars pat s` is `pat` occurring contiguously in `s`. -/
def infixChars : List Char → List Char → Bool
  | pat, [] => prefChars pat []
  | pat, c :: cs => prefChars pat (c :: cs) || infixChars pat cs

/-- JavaScript `s.includes(pat)`. -/
def strIncludes (s pat : String) : Bool :=
  infixChars pat.data s.data

/-- JavaScript `key[0] === UNDERSCORE` (the first character being an
underscore; false for the empty string, whose `key[0]` is `undefined`). -/
def keyHeadIsUnderscore (k : String) : Bool :=
  match k.data with
  | [] => false
  | c :: _ => c == '_'

namespace Component

/-- Errors thrown by the `Component` code paths under verification.
`uninitializedContext` is the error thrown by `_validateBindingContext`
(src/unnamed/part_001 lines 529-537), `notInitialized` the one thrown by the
`view` getter (lines 538-546).  `danglingRef` is a modelling artefact for a
binding-context reference that does not resolve in the heap; it never occurs
in the states the theorems talk about. -/
inductive JSErr where
  | uninitializedContext
  | notInitialized
  | danglingRef
deriving DecidableEq

/-- A binding-context object: `observable` records whether it exposes
`get`/`set` functions (a NativeScript `Observable`) or is a plain object; the
data is the key→value content.  Both shapes read and write through the same
store, which is exactly what `set`, `get` and `getBindingContextProperty`
normalise to (src/unnamed/part_001 lines 52-77, src/src/component-utils.js
lines 9-17). -/
structure BCtx where
  observable : Bool
  data : Store

/-- The heap of binding-context objects.  `view.bindingContext` fields hold
references (`Nat`) into this heap, so that the `===` comparison of
`_setNewBindingContextIfNeeded` is reference equality and a context inherited
from the parent view is literally the same object. -/
structure World where
  heap : Nat → Option BCtx
  nextRef : Nat

/-- Allocate a fresh empty `Observable` (`new Observable()`). -/
def World.alloc (w : World) : World × Nat :=
  ({ heap := fupd w.heap w.nextRef (some ⟨true, []⟩), nextRef := w.nextRef + 1 },
   w.nextRef)

/-- Overwrite the context object at reference `r`. -/
def World.writeCtx (w : World) (r : Nat) (ctx : BCtx) : World :=
  { w with heap := fupd w.heap r (some ctx) }

/-- The state of a NativeScript view as the `Component` code observes it.

`props` are the view's own properties (`Object.getOwnPropertyNames` order),
which is where NativeScript puts XML-attribute parameters; `classProps` are
the property names that a freshly constructed instance of the view's class
already defines (so `exampleInstance[key] === undefined` fails exactly for
them).  `parentCtx` models `view._parent`: `none` when the view has no parent,
`some pc` when the parent exists and its `bindingContext` is `pc`.
`pageIsSelfAndLoaded` models `view.page === view && view.isLoaded`. -/
structure ViewState where
  props : List (String × JSVal)
  classProps : List String
  bindingContext : Option Nat
  parentCtx : Option (Option Nat)
  navigationContext : JSVal
  pageIsSelfAndLoaded : Bool

/-- The state of one `Component` instance.  `view = none` is the state before
`this._view` has been assigned.  `modalContext = none` means the
`_modalContext` field has never been written.  `onPageLoadedWasCalled` and
`pageLoadedHookCalls` track the `_wasCalled` flag and the number of
invocations of the (base, no-op) `onPageLoaded` hook;
`subscribedPageLoaded` records the `view.page.on(LOADED, ...)` subscription
made by `_hookUpPageLoadedEvent`. -/
structure CompState where
  view : Option ViewState
  modalContext : Option JSVal
  closeCallbackSet : Bool
  onPageLoadedWasCalled : Bool
  pageLoadedHookCalls : Nat
  subscribedPageLoaded : Bool

/-- Model of `Component.prototype.set` (src/unnamed/part_001 lines 52-63): validate the
binding context, then either `bindingContext.set(name, value)` when the
context is observable or a plain property assignment otherwise; both store the
pair.  Returns the updated heap (the component state itself is unchanged). -/
def set (w : World) (c : CompState) (name : String) (value : JSVal) :
    Except JSErr World :=
  match c.view with
  | none => .error .notInitialized
  | some v =>
    match v.bindingContext with
    | none => .error .uninitializedContext
    | some r =>
      match w.heap r with
      | none => .error .danglingRef
      | some ctx => .ok (w.writeCtx r { ctx with data := storeSet ctx.data name value })

/-- Model of `Component.prototype.get` (src/unnamed/part_001 lines 73-77):
validate the binding context, then `getBindingContextProperty`
(src/src/component-utils.js lines 9-17), which reads through `get` for an
observable context and through a property read otherwise — both a store read. -/
def get (w : World) (c : CompState) (name : String) : Except JSErr JSVal :=
  match c.view with
  | none => .error .notInitialized
  | some v =>
    match v.bindingContext with
    | none => .error .uninitializedContext
    | some r =>
      match w.heap r with
      | none => .error .danglingRef
      | some ctx => .ok (storeGet ctx.data name)

/-- Model of `_getNamesOfPropertiesPassedAsXmlAttributes` (src/unnamed/part_001 lines
363-400): the view's own property names whose value on a fresh instance of the
view's class is `undefined`, whose first character is not an underscore, that
are not `exports` and do not contain `xmlns`. -/
def xmlAttributeParamNames (v : ViewState) : List String :=
  (v.props.map Prod.fst).filter fun k =>
    !(v.classProps.contains k) && !(keyHeadIsUnderscore k) &&
    !(k == "exports") && !(strIncludes k "xmlns")

/-- One iteration of the resolution loop in `init` (src/unnamed/part_001 lines
283-322): try the component's own binding context (`this.get`, whose throw on
an undefined context is caught, leaving `undefined`), then the parent view's
binding context (a throw on a missing parent or undefined parent context is
caught), then the literal value on the view object; combined with `||`. -/
def resolveParam (w : World) (v : ViewState) (name : String) : JSVal :=
  let valueFromView := storeGet v.props name
  let valueFromOriginalBindingContext :=
    match v.bindingContext with
    | none => JSVal.undef
    | some r =>
      match w.heap r with
      | none => JSVal.undef
      | some ctx => storeGet ctx.data name
  let valueFromParentBindingContext :=
    match v.parentCtx with
    | none => JSVal.undef
    | some none => JSVal.undef
    | some (some r) =>
      match w.heap r with
      | none => JSVal.undef
      | some ctx => storeGet ctx.data name
  jsOr valueFromOriginalBindingContext
    (jsOr valueFromParentBindingContext valueFromView)

/-- The value `parent ? parent.bindingContext : undefined` of
`_setNewBindingContextIfNeeded`. -/
def parentCtxValue (v : ViewState) : Option Nat :=
  match v.parentCtx with
  | none => none
  | some pc => pc

/-- Model of `_setNewBindingContextIfNeeded` (src/unnamed/part_001 lines 508-518): when
`view.bindingContext === (parent ? parent.bindingContext : undefined)` the
view is given a brand new `Observable` as context; otherwise nothing changes. -/
def setNewBindingContextIfNeeded (w : World) (v : ViewState) : World × ViewState :=
  if v.bindingContext = parentCtxValue v then
    let (w1, r) := w.alloc
    (w1, { v with bindingContext := some r })
  else
    (w, v)

/-- The property-application loop of `init` (src/unnamed/part_001 lines
329-332): `this.set(paramName, value)` for every resolved pair. -/
def applyParams (w : World) (c : CompState) :
    List (String × JSVal) → Except JSErr World
  | [] => .ok w
  | (n, value) :: rest =>
    match set w c n value with
    | .error e => .error e
    | .ok w1 => applyParams w1 c rest

/-- JavaScript `typeof x === OBJECT-STRING`: true for `null` and objects. -/
def typeofIsObject : JSVal → Bool
  | .null => true
  | .obj _ => true
  | _ => false

/-- The `for (var key in context)` enumeration: own enumerable properties of
an object, nothing for `null` (a `for..in` over `null` performs no
iterations and throws nothing). -/
def forInEntries : JSVal → List (String × JSVal)
  | .obj fields => fields
  | _ => []

/-- Model of `_setNavigationContextProperties` (src/unnamed/part_001 lines 519-528):
when `typeof context` is object, copy every enumerated property onto the
binding context through `this.set`; otherwise do nothing. -/
def setNavigationContextProperties (w : World) (c : CompState) (context : JSVal) :
    Except JSErr World :=
  if typeofIsObject context then applyParams w c (forInEntries context) else .ok w

/-- Model of `_hookUpPageLoadedEvent` (src/unnamed/part_001 lines 415-439) as far as a
single component's state is concerned: when the view is its own page and is
already loaded, `_callPageLoadedHook` runs at once (the base `onPageLoaded` is
a no-op, so only the `_wasCalled` flag and the invocation count change), and
the component subscribes to the page's loaded event.  The trailing
`page.onLoaded` wrapper installed by the same function only delegates to the
original `page.onLoaded` and is behaviourally the identity, so it has no
state in this model. -/
def hookUpPageLoadedEvent (c : CompState) (v : ViewState) : CompState :=
  let c1 :=
    if v.pageIsSelfAndLoaded then
      { c with onPageLoadedWasCalled := true,
               pageLoadedHookCalls := c.pageLoadedHookCalls + 1 }
    else c
  { c1 with subscribedPageLoaded := true }

/-- Model of `init` (src/unnamed/part_001 lines 268-336): record the view, resolve
every XML-attribute parameter against the pre-existing contexts, give the view
a new private context if needed, apply the resolved parameters, copy the
navigation-context properties, and hook up the page-loaded machinery. -/
def init (w : World) (c : CompState) (viewArg : ViewState) :
    Except JSErr (World × CompState) :=
  let names := xmlAttributeParamNames viewArg
  let xmlParamsToApply := names.map fun n => (n, resolveParam w viewArg n)
  let wv := setNewBindingContextIfNeeded w viewArg
  let c1 : CompState := { c with view := some wv.2 }
  match applyParams wv.1 c1 xmlParamsToApply with
  | .error e => .error e
  | .ok w2 =>
    match setNavigationContextProperties w2 c1 wv.2.navigationContext with
    | .error e => .error e
    | .ok w3 => .ok (w3, hookUpPageLoadedEvent c1 wv.2)

/-- Model of `onShownModally` (src/unnamed/part_001 lines 156-164): run `init`, store
the modal context and close callback, then copy the modal context's
properties through `_setNavigationContextProperties`. -/
def onShownModally (w : World) (c : CompState) (viewArg : ViewState)
    (context : JSVal) (closeCallback : Bool) : Except JSErr (World × CompState) :=
  match init w c viewArg with
  | .error e => .error e
  | .ok (w1, c1) =>
    let c2 := { c1 with modalContext := some context, closeCallbackSet := closeCallback }
    match setNavigationContextProperties w1 c2 context with
    | .error e => .error e
    | .ok w2 => .ok (w2, c2)

/-- A NavigationEntry object as `navigate` inspects it: a `component`
property (any value; `undef` models absence), a `moduleName` property, and
the remaining properties, which `navigate` never touches. -/
structure NavEntry where
  component : JSVal
  moduleName : JSVal
  rest : List (String × JSVal)

/-- Model of `navigate` (src/unnamed/part_001 lines 221-233), restricted to an object
argument (the `typeof arg === OBJECT` guard holds): when `arg.component` is a
string, `arg.moduleName` is rewritten to `components/<name>/<name>`; the
(possibly rewritten) entry is then handed to `frame.topmost().navigate`.  The
function returns the entry as delegated to the host. -/
def navigate (entry : NavEntry) : NavEntry :=
  match entry.component with
  | .str c => { entry with moduleName := .str ("components/" ++ c ++ "/" ++ c) }
  | _ => entry

end Component

namespace PageLoaded

/-!
Operational model of the outside-in initialisation protocol of
src/unnamed/part_001 (`_callPageLoadedHook` lines 440-450, `_onPageLoaded`
lines 459-501), instantiated at the smallest tree that exercises the
monkey-patch path: a page-root component `A` and one nested child component
`B` whose classes each have their own `onPageLoaded` function (so the
per-function `_wasCalled` / `_returnValue` bookkeeping is per component).
Both components subscribed their `_onPageLoaded` handlers to the page's
loaded event during `init`; the host fires the handlers in subscription
order, which is inside-out (`B` first), the exact situation the protocol
exists for.  `A.onPageLoaded` returns a non-Promise in this run.

`this`-binding, traced from the transpiled source: the wrapper that `B`
installs over `A.onPageLoaded` (lines 486-500) is a plain `function`
expression, so when `A._callPageLoadedHook` invokes `this.onPageLoaded()`
(line 448) the wrapper runs with `this === A` (and its inner `_this2` is
likewise `A`).  Both of the wrapper's return branches therefore call
`A._callPageLoadedHook` again, not `B`'s.
-/

/-- The joint state of the two components.  `aCalls`/`bCalls` count the
invocations of the respective class's original (user-overridable)
`onPageLoaded` hook; `aPatched` states whether `A.onPageLoaded` currently
holds `B`'s wrapper; `aWasCalled`/`bWasCalled` are the `_wasCalled`
properties of the function objects currently held in the two slots. -/
structure PLState where
  aCalls : Nat
  bCalls : Nat
  aPatched : Bool
  aWasCalled : Bool
  bWasCalled : Bool
deriving DecidableEq

/-- Model of `A._callPageLoadedHook()` (lines 440-450): set `_wasCalled` on the
function currently in `A.onPageLoaded`, then invoke it with receiver `A`.
When the slot holds `B`'s wrapper, the wrapper first runs the captured
original hook of `A` and then — its `this` being `A` — calls
`A._callPageLoadedHook` again.  When the slot is unpatched the original hook
runs once and the call returns.  `fuel` bounds the recursion; the boolean
result records whether the call returned within the bound (`false` models
the stack growing without returning). -/
def callHookA : Nat → PLState → PLState × Bool
  | 0, s => (s, false)
  | n + 1, s =>
    let s1 := { s with aWasCalled := true }
    if s1.aPatched then
      callHookA n { s1 with aCalls := s1.aCalls + 1 }
    else
      ({ s1 with aCalls := s1.aCalls + 1 }, true)

/-- Model of `B`'s page-loaded handler `_onPageLoaded` (lines 459-501):
`_getParentComponent()` finds `A`.  If `A.onPageLoaded._wasCalled` is set
and `_returnValue` is not a Promise, `B._callPageLoadedHook()` runs now.
Otherwise `B` replaces `A.onPageLoaded` with its wrapper; the fresh wrapper
function object carries no `_wasCalled` property. -/
def bPageLoadedHandler (s : PLState) : PLState :=
  if s.aWasCalled then
    { s with bWasCalled := true, bCalls := s.bCalls + 1 }
  else
    { s with aPatched := true, aWasCalled := false }

/-- Model of `A`'s page-loaded handler: `A` is the outermost component, so
`_getParentComponent()` is `null` and `A._callPageLoadedHook()` runs
(lines 464-469). -/
def aPageLoadedHandler (fuel : Nat) (s : PLState) : PLState × Bool :=
  callHookA fuel s

/-- The initial state: no hook has run, `A.onPageLoaded` unpatched. -/
def initialState : PLState := ⟨0, 0, false, false, false⟩

/-- The page's loaded event dispatched inside-out: `B`'s handler first (it
installs the wrapper, since `A`'s hook has not run), then `A`'s handler. -/
def runInsideOut (fuel : Nat) : PLState × Bool :=
  aPageLoadedHandler fuel (bPageLoadedHandler initialState)

end PageLoaded

namespace Manager

/-!
Model of `ComponentManager` (src/src/ComponentManager.js) for one component
class.  Components are identified by the identifier produced by
`generateUuid`; the random 128-bit identifier source is modelled as a fresh
supply (`nextUuid`), which captures exactly the property the code relies on:
each call yields a previously unused identifier.

Views are identified by `Nat` keys; `views` maps a view to its
`bindingContext` reference and `heap` maps a context reference to the
context's two marker properties.  Only the markers the manager reads and
writes are modelled (the context keys `_componentId` and `_component`,
written at src/src/ComponentManager.js lines 154-161); user data on the
contexts does not take part in the registry logic.

The views driven through this model are component root views whose parent
has no binding context (the situation of the N-distinct-views and singleton
claims), so the collaborating `Component.init` behaviour reduces to:
assign `component._view`, and give the view a fresh private `Observable`
context when its context is `undefined` (`_setNewBindingContextIfNeeded`
with an undefined parent context).
-/

/-- The marker properties of a binding context as the manager sees them:
`componentId` is the `_componentId` property, `compRef` the `_component`
back-reference (modelled by the component's identifier). -/
structure MCtx where
  componentId : Option Nat
  compRef : Option Nat
deriving DecidableEq

/-- The manager's state plus the world of views and contexts it acts on.
`instances` is `_instances` (a list of component identifiers in push order);
`compView` maps a component identifier to its current `_view`; `armed` is
the list of views on which `_addNewComponent` attached the `unloaded`
listener; `errorsLogged` counts `this._error(...)` calls. -/
structure MState where
  instances : List Nat
  compView : Nat → Option Nat
  views : Nat → Option Nat
  heap : Nat → Option MCtx
  nextUuid : Nat
  nextRef : Nat
  armed : List Nat
  errorsLogged : Nat

/-- The clean starting state: no instances, every view's context undefined. -/
def clean : MState :=
  { instances := [], compView := fun _ => none, views := fun _ => none,
    heap := fun _ => none, nextUuid := 0, nextRef := 0, armed := [],
    errorsLogged := 0 }

/-- Model of `_getComponentId` (src/src/ComponentManager.js lines 231-233):
`getBindingContextProperty(bindingContext, COMPONENT-ID-KEY)`. -/
def getComponentId (s : MState) (r : Nat) : Option Nat :=
  match s.heap r with
  | none => none
  | some ctx => ctx.componentId

/-- Model of `this._instances.find(({ _id }) => _id === componentId)`: the first
instance whose identifier matches, or nothing. -/
def findInInstances : List Nat → Nat → Option Nat
  | [], _ => none
  | x :: xs, cid => if x == cid then some x else findInInstances xs cid

/-- Model of `_getComponentForRootView` (src/src/ComponentManager.js lines 217-229):
no binding context or no (truthy) `_componentId` yields `null`; otherwise
the instance with the matching identifier, or `null`. -/
def getComponentForRootView (s : MState) (viewId : Nat) : Option Nat :=
  match s.views viewId with
  | none => none
  | some r =>
    match getComponentId s r with
    | none => none
    | some cid => findInInstances s.instances cid

/-- JavaScript `findIndex` over `_instances`. -/
def findIdxN : List Nat → Nat → Option Nat
  | [], _ => none
  | x :: xs, cid => if x == cid then some 0 else (findIdxN xs cid).map (· + 1)

/-- JavaScript `splice(componentIndex, 1)`. -/
def removeAt : List Nat → Nat → List Nat
  | [], _ => []
  | _ :: xs, 0 => xs
  | x :: xs, n + 1 => x :: removeAt xs n

/-- The collaborating `Component` hook run when the manager proxies an
initialisation hook to a component: `init` assigns `this._view` and, for
these parentless root views, `_setNewBindingContextIfNeeded` gives the view
a fresh, empty private context exactly when its context is undefined. -/
def runInitHook (s : MState) (cid viewId : Nat) : MState :=
  let s1 := { s with compView := fupd s.compView cid (some viewId) }
  match s1.views viewId with
  | none =>
    { s1 with heap := fupd s1.heap s1.nextRef (some ⟨none, none⟩),
              views := fupd s1.views viewId (some s1.nextRef),
              nextRef := s1.nextRef + 1 }
  | some _ => s1

/-- The two marker writes performed after a freshly created component's init
hook returns (src/src/ComponentManager.js lines 154-161):
`component.set(COMPONENT-ID-KEY, component._id)` and
`component.set(COMPONENT-KEY, component)`.  The fallthrough branches are
unreachable after `runInitHook`, which always leaves the component's view
with a context. -/
def setMarkers (s : MState) (cid : Nat) : MState :=
  match s.compView cid with
  | none => s
  | some viewId =>
    match s.views viewId with
    | none => s
    | some r =>
      match s.heap r with
      | none => s
      | some _ => { s with heap := fupd s.heap r (some ⟨some cid, some cid⟩) }

/-- Model of `_addInitHookProxyMethod`'s installed function
(src/src/ComponentManager.js lines 127-164): look up the component for the
root view; fall back to the sole instance for a singleton class; create and
register a new component otherwise (attaching the `unloaded` listener only
for non-singleton classes); proxy the hook; and write the markers when a
component was created.  Returns the state and the identifier of the
component the call resolved to. -/
def initHookProxy (isSingleton : Bool) (s : MState) (viewId : Nat) :
    MState × Nat :=
  let found :=
    match getComponentForRootView s viewId with
    | some c => some c
    | none => if isSingleton then s.instances.head? else none
  match found with
  | some cid => (runInitHook s cid viewId, cid)
  | none =>
    let cid := s.nextUuid
    let s1 := { s with nextUuid := cid + 1,
                       compView := fupd s.compView cid (some viewId),
                       instances := s.instances ++ [cid],
                       armed := if isSingleton then s.armed else s.armed ++ [viewId] }
    (setMarkers (runInitHook s1 cid viewId) cid, cid)

/-- The `unloaded` listener body (src/src/ComponentManager.js lines 73-91),
fired when the view's `unloaded` event occurs.  The listener only exists on
views in `armed`.  A missing binding context, or an identifier matching no
instance, is logged through `this._error` and the handler returns without
removing anything; otherwise the found instance is spliced out. -/
def unloadedEvent (s : MState) (viewId : Nat) : MState :=
  if viewId ∈ s.armed then
    match s.views viewId with
    | none => { s with errorsLogged := s.errorsLogged + 1 }
    | some r =>
      match getComponentId s r with
      | none => { s with errorsLogged := s.errorsLogged + 1 }
      | some cid =>
        match findIdxN s.instances cid with
        | none => { s with errorsLogged := s.errorsLogged + 1 }
        | some i => { s with instances := removeAt s.instances i }
  else s

/-- Model of `getComponentForView` (src/src/component-utils.js lines 28-47) on the
parentless root views of this model: a defined context whose `_component`
marker is set resolves to that component; otherwise, having no parent to
recurse into, the walk returns `null`. -/
def getComponentForViewModel (s : MState) (viewId : Nat) : Option Nat :=
  match s.views viewId with
  | none => none
  | some r =>
    match s.heap r with
    | none => none
    | some ctx => ctx.compRef

/-- The error thrown by the non-singleton branch of `_addProxyMethod` when
no owning component is found (src/src/ComponentManager.js lines 199-202). -/
inductive ThrownErr where
  | componentNotFound
deriving DecidableEq

/-- Model of `_addProxyMethod`'s installed function (src/src/ComponentManager.js
lines 174-207): for a singleton class, use `this._instances[0]`; when there
is none, `this._error(message)` is called and the function returns
`undefined` — nothing is thrown.  For a non-singleton class the owning
component is resolved through `getComponentForView`, and a failed resolution
throws.  The `Option Nat` result is the component the call was proxied to
(`none` models returning `undefined` without proxying). -/
def methodProxy (isSingleton : Bool) (s : MState) (viewId : Nat) :
    Except ThrownErr (MState × Option Nat) :=
  if isSingleton then
    match s.instances.head? with
    | some cid => .ok (s, some cid)
    | none => .ok ({ s with errorsLogged := s.errorsLogged + 1 }, none)
  else
    match getComponentForViewModel s viewId with
    | some cid => .ok (s, some cid)
    | none => .error .componentNotFound

/-- Returns `true` exactly when the call threw. -/
def isThrown {ε α : Type} : Except ε α → Bool
  | .error _ => true
  | .ok _ => false

/-- Events a singleton manager can observe: an initialisation lifecycle hook,
a non-initialisation method call, or a view's `unloaded` event. -/
inductive MEvent where
  | initHook (viewId : Nat)
  | methodCall (viewId : Nat)
  | unloaded (viewId : Nat)
deriving DecidableEq

/-- Whether an event is one of the four initialisation hooks. -/
def isInitEv : MEvent → Bool
  | .initHook _ => true
  | _ => false

/-- One event dispatched through the exported functions of a singleton
class's manager, together with the identifier of the component the event was
proxied to (`none` when no component was resolved).  The singleton branch of
`methodProxy` never throws, so the step is total. -/
def stepSingleton (s : MState) : MEvent → MState × Option Nat
  | .initHook v =>
    let p := initHookProxy true s v
    (p.1, some p.2)
  | .methodCall _ =>
    match s.instances.head? with
    | some cid => (s, some cid)
    | none => ({ s with errorsLogged := s.errorsLogged + 1 }, none)
  | .unloaded v => (unloadedEvent s v, none)

/-- Run a list of events from a state, collecting each event's resolution. -/
def runSingleton : MState → List MEvent → MState × List (MEvent × Option Nat)
  | s, [] => (s, [])
  | s, e :: es =>
    let p := stepSingleton s e
    let q := runSingleton p.1 es
    (q.1, (e, p.2) :: q.2)

/-- The ascending list `a, a+1, ..., a+n-1` of view identifiers. -/
def seqN : Nat → Nat → List Nat
  | _, 0 => []
  | a, n + 1 => a :: seqN (a + 1) n

/-- Fire one initialisation lifecycle event for each view in the list, on a
non-singleton class's manager. -/
def processViews : MState → List Nat → MState
  | s, [] => s
  | s, v :: vs => processViews (initHookProxy false s v).1 vs

/-- Fire one initialisation lifecycle event for each of the `N` distinct
fresh views `0, ..., N-1`. -/
def processN (N : Nat) : MState := processViews clean (seqN 0 N)

/-- The state reached after initialising the first `m` views: one instance
per view, identifiers `0, ..., m-1` in creation order, each view holding its
private context carrying the component's markers, every view's unload
listener armed, and no errors logged. -/
def charState (m : Nat) : MState :=
  { instances := seqN 0 m,
    compView := fun c => if c < m then some c else none,
    views := fun v => if v < m then some v else none,
    heap := fun r => if r < m then some ⟨some r, some r⟩ else none,
    nextUuid := m, nextRef := m,
    armed := seqN 0 m, errorsLogged := 0 }

/-- The registry invariant of a singleton class's manager: no view ever has
an unload listener attached, and the instance collection is either still
empty (identifier supply untouched) or holds exactly the one instance `0`. -/
def InvSingleton (s : MState) : Prop :=
  s.armed = [] ∧
  ((s.instances = [] ∧ s.nextUuid = 0) ∨ (s.instances = [0] ∧ s.nextUuid = 1))

end Manager

/-!  Concrete states used by the examples and witnesses. -/

/-- A component on which no lifecycle hook has run (`_view` is set by
`_addNewComponent` before any hook is proxied; no other field is set). -/
def blankComp : Component.CompState :=
  { view := none, modalContext := none, closeCallbackSet := false,
    onPageLoadedWasCalled := false, pageLoadedHookCalls := 0,
    subscribedPageLoaded := false }

/-- The bound user record of the attribute-binding example. -/
def userRecord : JSVal := .obj [("name", .str "Alice")]

/-- A world with one binding context (reference `0`), the parent page's
context, on which the host has resolved the dynamic expression for the
`record` attribute. -/
def exampleParentWorld : Component.World :=
  { heap := fupd (fun _ => none) 0 (some ⟨true, [("record", userRecord)]⟩),
    nextRef := 1 }

/-- The child view of the attribute-binding example: the host placed the
static attribute value for `fieldName` and an empty-object placeholder for
the dynamic `record` attribute on the view, and the view's context is
(by NativeScript context inheritance) the parent view's context itself. -/
def exampleChildView : Component.ViewState :=
  { props := [("fieldName", .str "firstName"), ("record", .obj [])],
    classProps := [], bindingContext := some 0, parentCtx := some (some 0),
    navigationContext := .undef, pageIsSelfAndLoaded := false }

/-- Read a property of the binding context of the component produced by an
`init`-shaped result. -/
def initCtxLookup (res : Except Component.JSErr (Component.World × Component.CompState))
    (name : String) : Option JSVal :=
  match res with
  | .error _ => none
  | .ok (w1, c1) =>
    match c1.view with
    | none => none
    | some v1 =>
      match v1.bindingContext with
      | none => none
      | some r =>
        match w1.heap r with
        | none => none
        | some ctx => some (storeGet ctx.data name)

/-- Returns `true` exactly when the value is a string. -/
def isStringVal : JSVal → Bool
  | .str _ => true
  | _ => false

/-- A view with no XML-attribute properties, no parent, no navigation
context, and the given binding context. -/
def plainView (bc : Option Nat) : Component.ViewState :=
  { props := [], classProps := [], bindingContext := bc, parentCtx := none,
    navigationContext := .undef, pageIsSelfAndLoaded := false }

/-- A component whose `_view` has been assigned (as `_addNewComponent` does
on creation) but on which nothing else has happened. -/
def compWithView (v : Component.ViewState) : Component.CompState :=
  { blankComp with view := some v }

/-- A world with one observable context at reference `0`. -/
def obsWorld : Component.World :=
  { heap := fupd (fun _ => none) 0 (some ⟨true, []⟩), nextRef := 1 }

/-- A world with one plain-object context at reference `0`. -/
def plainCtxWorld : Component.World :=
  { heap := fupd (fun _ => none) 0 (some ⟨false, [("y", .num 2)]⟩), nextRef := 1 }

/-- Counterexample world for the binding-context claim: one parent context
at reference `5`. -/
def wC2 : Component.World :=
  { heap := fupd (fun _ => none) 5 (some ⟨true, []⟩), nextRef := 6 }

/-- Counterexample view: its own binding context is undefined while its
parent view has the defined context `5`. -/
def vC2 : Component.ViewState :=
  { props := [], classProps := [], bindingContext := none,
    parentCtx := some (some 5), navigationContext := .undef,
    pageIsSelfAndLoaded := false }

/-- The component state produced by running `init` on `blankComp` with the
trivial view `plainView (some 0)`. -/
def c10InitResult : Component.CompState :=
  { blankComp with view := some (plainView (some 0)), subscribedPageLoaded := true }

/-- A sample event sequence for the singleton-registry claims. -/
def wEvents : List Manager.MEvent :=
  [.methodCall 4, .initHook 0, .unloaded 0, .initHook 7, .methodCall 2]

/-!  Helper lemmas. -/

theorem fupd_apply_same {α : Type} (f : Nat → α) (k : Nat) (v : α) :
    fupd f k v k = v := by
  simp [fupd]

theorem fupd_apply_ne {α : Type} (f : Nat → α) (k : Nat) (v : α) (x : Nat)
    (h : x ≠ k) : fupd f k v x = f x := by
  simp [fupd, h]

theorem fupd_fupd_same {α : Type} (f : Nat → α) (k : Nat) (a b : α) :
    fupd (fupd f k a) k b = fupd f k b := by
  funext x
  by_cases h : x = k <;> simp [fupd, h]

theorem fupd_eq_self {α : Type} (f : Nat → α) (k : Nat) (v : α) (h : f k = v) :
    fupd f k v = f := by
  funext x
  by_cases hx : x = k <;> simp [fupd, hx, h]

theorem storeGet_storeSet_self (d : Store) (n : String) (value : JSVal) :
    storeGet (storeSet d n value) n = value := by
  induction d with
  | nil => simp [storeSet, storeGet]
  | cons p rest ih =>
    obtain ⟨k, u⟩ := p
    by_cases h : k = n
    · subst h
      simp [storeSet, storeGet]
    · have hb : (k == n) = false := by simp [h]
      simp [storeSet, storeGet, hb, ih]

theorem storeGet_storeSet_ne (d : Store) (m n : String) (u : JSVal)
    (h : n ≠ m) : storeGet (storeSet d m u) n = storeGet d n := by
  have hmn : (m == n) = false := by simpa using Ne.symm h
  induction d with
  | nil => simp [storeSet, storeGet, hmn]
  | cons p rest ih =>
    obtain ⟨k, u2⟩ := p
    by_cases hk : k = m
    · subst hk
      simp [storeSet, storeGet, hmn]
    · have hb : (k == m) = false := by simp [hk]
      simp only [storeSet, hb, if_false, Bool.false_eq_true]
      by_cases hkn : k = n
      · subst hkn
        simp [storeGet]
      · have hbn : (k == n) = false := by simp [hkn]
        simp [storeGet, hbn, ih]

theorem storeGet_foldl_not_mem (ps : List (String × JSVal)) :
    ∀ (d : Store) (n : String), n ∉ ps.map Prod.fst →
      storeGet (ps.foldl (fun acc p => storeSet acc p.1 p.2) d) n = storeGet d n := by
  induction ps with
  | nil => intro d n _; rfl
  | cons q rest ih =>
    intro d n hn
    obtain ⟨m, u⟩ := q
    simp only [List.map, List.mem_cons, not_or] at hn
    simpa [List.foldl, ih (storeSet d m u) n hn.2] using
      storeGet_storeSet_ne d m n u hn.1

theorem storeGet_foldl_mem (ps : List (String × JSVal)) :
    ∀ (d : Store) (n : String) (vv : JSVal),
      (ps.map Prod.fst).Nodup → (n, vv) ∈ ps →
      storeGet (ps.foldl (fun acc p => storeSet acc p.1 p.2) d) n = vv := by
  induction ps with
  | nil => intro _ _ _ _ h; cases h
  | cons q rest ih =>
    intro d n vv hnd hmem
    obtain ⟨m, u⟩ := q
    simp only [List.map, List.nodup_cons] at hnd
    rcases List.mem_cons.mp hmem with heq | hmem2
    · obtain ⟨h1, h2⟩ := Prod.mk.inj heq
      subst h1; subst h2
      rw [List.foldl_cons, storeGet_foldl_not_mem rest (storeSet d n vv) n hnd.1,
        storeGet_storeSet_self]
    · exact List.foldl_cons .. ▸ ih (storeSet d m u) n vv hnd.2 hmem2

/-!  Claim C2 — binding-context assignment. -/

/-- Claim C2, counterexample.  The claim states that a fresh private binding
context is assigned if and only if the view's current binding context is
undefined or identity-equal to the parent view's context.  Here the view's
binding context is undefined while the parent view has the defined context
`5`; `_setNewBindingContextIfNeeded` compares `undefined === parentContext`,
which is false, so it leaves the state untouched and no fresh context is
assigned — the claimed left-to-right direction fails. -/
theorem c2_undefined_context_not_replaced :
    vC2.bindingContext = none ∧
    Component.setNewBindingContextIfNeeded wC2 vC2 = (wC2, vC2) :=
  ⟨rfl, rfl⟩

/-- Claim C2, amended: during the one-time binding step a fresh, private
binding context is assigned if and only if the view's current binding
context is identity-equal to `parent ? parent.bindingContext : undefined` —
that is, exactly when the context is undefined while the parent is absent or
the parent's context is also undefined, or the context is defined and is the
parent's context itself; in every other case (including an undefined context
under a parent with a defined context) the view keeps its current context. -/
theorem c2_fresh_context_iff_inherited (w : Component.World)
    (v : Component.ViewState) :
    (v.bindingContext = Component.parentCtxValue v →
       Component.setNewBindingContextIfNeeded w v
         = ({ heap := fupd w.heap w.nextRef (some ⟨true, []⟩),
              nextRef := w.nextRef + 1 },
            { v with bindingContext := some w.nextRef })) ∧
    (v.bindingContext ≠ Component.parentCtxValue v →
       Component.setNewBindingContextIfNeeded w v = (w, v)) ∧
    (v.bindingContext = Component.parentCtxValue v ↔
       (v.bindingContext = none ∧ (v.parentCtx = none ∨ v.parentCtx = some none)) ∨
       (∃ r, v.bindingContext = some r ∧ v.parentCtx = some (some r))) := by
  refine ⟨fun h => ?_, fun h => ?_, ?_⟩
  · simp [Component.setNewBindingContextIfNeeded, h, Component.World.alloc]
  · simp [Component.setNewBindingContextIfNeeded, h]
  · cases hp : v.parentCtx with
    | none =>
      cases hb : v.bindingContext <;>
        simp [Component.parentCtxValue, hp, hb]
    | some pc =>
      cases pc with
      | none => cases hb : v.bindingContext <;> simp [Component.parentCtxValue, hp, hb]
      | some r =>
        cases hb : v.bindingContext with
        | none => simp [Component.parentCtxValue, hp, hb]
        | some r2 =>
          simp only [Component.parentCtxValue, hp, hb]
          constructor
          · rintro h
            exact Or.inr ⟨r2, rfl, by simpa using (Option.some.inj h) ▸ rfl⟩
          · rintro (⟨h1, _⟩ | ⟨r3, h3, h4⟩)
            · cases h1
            · cases h3; cases h4; rfl

/-- Witness for the amended C2 theorem: a root view (no parent) with an
undefined context receives the fresh observable context `1` of `obsWorld`. -/
theorem c2_fresh_context_iff_inherited_witness :
    Component.setNewBindingContextIfNeeded obsWorld (plainView none)
      = ({ heap := fupd obsWorld.heap obsWorld.nextRef (some ⟨true, []⟩),
           nextRef := obsWorld.nextRef + 1 },
         { plainView none with bindingContext := some obsWorld.nextRef }) :=
  (c2_fresh_context_iff_inherited obsWorld (plainView none)).1 rfl

/-!  Claim C4 — get/set round-trip. -/

/-- Claim C4: on every initialised component (view assigned, binding context
defined — of either shape, observable or plain object), `set(x, v)` followed
by `get(x)` yields exactly `v`. -/
theorem c4_set_get_roundtrip (w : Component.World) (c : Component.CompState)
    (v : Component.ViewState) (r : Nat) (ctx : Component.BCtx)
    (hview : c.view = some v) (hctx : v.bindingContext = some r)
    (hheap : w.heap r = some ctx) (name : String) (value : JSVal) :
    ∃ w1, Component.set w c name value = .ok w1 ∧
      Component.get w1 c name = .ok value := by
  refine ⟨w.writeCtx r { ctx with data := storeSet ctx.data name value }, ?_, ?_⟩
  · simp [Component.set, hview, hctx, hheap]
  · simp [Component.get, Component.World.writeCtx, hview, hctx,
      fupd_apply_same, storeGet_storeSet_self]

/-- Witness for C4 at concrete inputs, once with an observable context and
once with a plain-object context. -/
theorem c4_set_get_roundtrip_witness :
    (∃ w1, Component.set obsWorld (compWithView (plainView (some 0))) "x" (.num 7)
        = .ok w1 ∧
      Component.get w1 (compWithView (plainView (some 0))) "x" = .ok (.num 7)) ∧
    (∃ w1, Component.set plainCtxWorld (compWithView (plainView (some 0))) "x" (.num 7)
        = .ok w1 ∧
      Component.get w1 (compWithView (plainView (some 0))) "x" = .ok (.num 7)) :=
  ⟨c4_set_get_roundtrip obsWorld (compWithView (plainView (some 0)))
      (plainView (some 0)) 0 ⟨true, []⟩ rfl rfl rfl "x" (.num 7),
   c4_set_get_roundtrip plainCtxWorld (compWithView (plainView (some 0)))
      (plainView (some 0)) 0 ⟨false, [("y", .num 2)]⟩ rfl rfl rfl "x" (.num 7)⟩

/-!  Claim C5 — get/set on an uninitialised binding context. -/

/-- Claim C5: on a component whose view has been assigned (as the manager
does at creation) but for which no lifecycle hook has run, so that the
view's binding context is still undefined, both `get` and `set` throw the
`_validateBindingContext` error — the uninitialised-context condition. -/
theorem c5_uninitialized_context_throws (w : Component.World)
    (c : Component.CompState) (v : Component.ViewState)
    (hview : c.view = some v) (hctx : v.bindingContext = none)
    (name : String) (value : JSVal) :
    Component.get w c name = .error .uninitializedContext ∧
    Component.set w c name value = .error .uninitializedContext := by
  constructor
  · simp [Component.get, hview, hctx]
  · simp [Component.set, hview, hctx]

/-- Witness for C5 at a concrete component. -/
theorem c5_uninitialized_context_throws_witness :
    Component.get obsWorld (compWithView (plainView none)) "x"
      = .error .uninitializedContext ∧
    Component.set obsWorld (compWithView (plainView none)) "x" (.num 1)
      = .error .uninitializedContext :=
  c5_uninitialized_context_throws obsWorld (compWithView (plainView none))
    (plainView none) rfl rfl "x" (.num 1)

/-!  Claim C8 — singleton method call before any instance exists. -/

/-- Claim C8, counterexample.  The claim states that invoking an exported
non-initialisation method of a singleton class before any instance exists
raises an error to the caller.  In `_addProxyMethod`
(src/src/ComponentManager.js lines 187-197) this situation calls
`this._error(message)` — which only logs — and returns `undefined`; nothing
is thrown. -/
theorem c8_singleton_method_does_not_throw :
    Manager.isThrown (Manager.methodProxy true Manager.clean 0) = false ∧
    Manager.methodProxy true Manager.clean 0
      = .ok ({ Manager.clean with errorsLogged := 1 }, none) :=
  ⟨rfl, rfl⟩

/-- Claim C8, amended: when an exported non-initialisation method of a
singleton component class is invoked before any instance of that class
exists, the dispatcher logs an error message and returns `undefined` to the
caller without proxying the call to any component; no error is raised. -/
theorem c8_singleton_method_logs_and_returns (s : Manager.MState) (v : Nat)
    (h : s.instances = []) :
    Manager.methodProxy true s v
      = .ok ({ s with errorsLogged := s.errorsLogged + 1 }, none) := by
  simp [Manager.methodProxy, h]

/-- Witness for the amended C8 theorem. -/
theorem c8_singleton_method_logs_and_returns_witness :
    Manager.methodProxy true Manager.clean 5
      = .ok ({ Manager.clean with errorsLogged := Manager.clean.errorsLogged + 1 },
             none) :=
  c8_singleton_method_logs_and_returns Manager.clean 5 rfl

/-!  Claim C9 — navigate rewriting. -/

/-- Claim C9: `navigate` hands the host an entry whose `moduleName` has been
rewritten to `components/<name>/<name>` whenever the entry carries a string
`component` property, and hands the entry through completely unchanged
whenever it does not. -/
theorem c9_navigate_rewrite :
    (∀ (entry : Component.NavEntry) (cName : String),
       entry.component = .str cName →
       Component.navigate entry
         = { entry with moduleName := .str ("components/" ++ cName ++ "/" ++ cName) }) ∧
    (∀ entry : Component.NavEntry, isStringVal entry.component = false →
       Component.navigate entry = entry) := by
  constructor
  · intro entry cName h
    simp [Component.navigate, h]
  · intro entry h
    cases hc : entry.component
    case str s => simp [hc, isStringVal] at h
    all_goals simp [Component.navigate, hc]

/-- Witness for C9: `navigate` with component `foo` targets
`components/foo/foo`, and an entry with only a `moduleName` passes through
unchanged. -/
theorem c9_navigate_rewrite_witness :
    Component.navigate ⟨.str "foo", .undef, []⟩
      = ⟨.str "foo", .str ("components/" ++ "foo" ++ "/" ++ "foo"), []⟩ ∧
    Component.navigate ⟨.undef, .str "bar", []⟩ = ⟨.undef, .str "bar", []⟩ :=
  ⟨c9_navigate_rewrite.1 ⟨.str "foo", .undef, []⟩ "foo" rfl,
   c9_navigate_rewrite.2 ⟨.undef, .str "bar", []⟩ rfl⟩

/-!  Claim C1 — outside-in ordering of the page-loaded hooks. -/

theorem callHookA_patched_loop (n : Nat) :
    ∀ s : PageLoaded.PLState, s.aPatched = true → s.aWasCalled = true →
      PageLoaded.callHookA n s = ({ s with aCalls := s.aCalls + n }, false) := by
  induction n with
  | zero =>
    rintro ⟨ac, bc, pt, wc, bw⟩ _ _
    simp [PageLoaded.callHookA]
  | succ n ih =>
    rintro ⟨ac, bc, pt, wc, bw⟩ hp hw
    simp only at hp hw
    subst hp; subst hw
    have h2 := ih ⟨ac + 1, bc, true, true, bw⟩ rfl rfl
    simp only [PageLoaded.callHookA, h2]
    simp [Nat.add_assoc, Nat.add_comm 1 n]

/-- Claim C1 (divergence of the code from the claimed ordering).  Failing
input: a page-root component `A` with a nested child component `B`, the
page's loaded event dispatched inside-out (`B`'s subscriber first — the
normal host order the protocol exists for), `A`'s hook returning a
non-Promise.  `B`'s handler finds `A`'s hook uncalled and monkey-patches it;
but the installed wrapper's `this` is `A` when `A._callPageLoadedHook`
invokes it, so both of its return paths call `A._callPageLoadedHook` again.
Consequence, for every recursion bound `fuel`: the dispatch of `A`'s handler
never returns, `B`'s user hook is never invoked, and `A`'s user hook is
invoked `fuel` times — instead of the claimed behaviour (each hook once,
ancestor before descendant).  The code's own comment at the patch site says
the patch makes THIS (the child) component's hook run after the parent's,
which the code does not do, so the claim is taken as correct and the code as
wrong. -/
theorem c1_inside_out_divergence (fuel : Nat) :
    (PageLoaded.runInsideOut fuel).2 = false ∧
    (PageLoaded.runInsideOut fuel).1.bCalls = 0 ∧
    (PageLoaded.runInsideOut fuel).1.aCalls = fuel := by
  cases fuel with
  | zero => exact ⟨rfl, rfl, rfl⟩
  | succ n =>
    have h := callHookA_patched_loop n ⟨1, 0, true, true, false⟩ rfl rfl
    simp only [PageLoaded.runInsideOut, PageLoaded.aPageLoadedHandler,
      PageLoaded.bPageLoadedHandler, PageLoaded.initialState,
      PageLoaded.callHookA]
    simp [h, Nat.add_comm 1 n]

/-!  Claim C10 — onShownModally and the modal context. -/

/-- Claim C10: `onShownModally` stores `options.context`, which the
`modalContext` getter thereafter returns, regardless of the context's type;
and the context's properties are copied onto the binding context only when
`typeof context` is object — for a primitive context (string, number,
boolean, undefined) and likewise for `null` (over which `for..in` iterates
zero times) nothing is copied and no error is raised, the call returning
exactly the `init` result with the two modal fields set. -/
theorem c10_modal_context (w : Component.World) (c : Component.CompState)
    (viewArg : Component.ViewState) (context : JSVal) (cb : Bool) :
    (∀ (w2 : Component.World) (c2 : Component.CompState),
       Component.onShownModally w c viewArg context cb = .ok (w2, c2) →
       c2.modalContext = some context) ∧
    (∀ (w1 : Component.World) (c1 : Component.CompState),
       (Component.typeofIsObject context = false ∨ context = JSVal.null) →
       Component.init w c viewArg = .ok (w1, c1) →
       Component.onShownModally w c viewArg context cb
         = .ok (w1, { c1 with modalContext := some context,
                              closeCallbackSet := cb })) := by
  constructor
  · intro w2 c2 h
    cases hinit : Component.init w c viewArg with
    | error e => simp [Component.onShownModally, hinit] at h
    | ok p =>
      obtain ⟨w1, c1⟩ := p
      simp only [Component.onShownModally, hinit] at h
      cases hnav : Component.setNavigationContextProperties w1
          { c1 with modalContext := some context, closeCallbackSet := cb } context with
      | error e => rw [hnav] at h; cases h
      | ok w3 =>
        rw [hnav] at h
        cases h
        rfl
  · intro w1 c1 hobj hinit
    simp only [Component.onShownModally, hinit]
    rcases hobj with hobj | hobj
    · simp [Component.setNavigationContextProperties, hobj]
    · subst hobj
      simp [Component.setNavigationContextProperties, Component.applyParams,
        Component.forInEntries, Component.typeofIsObject]

/-- Witness for C10: a component initialised on a trivial view, shown
modally with the primitive modal context `hello`. -/
theorem c10_modal_context_witness :
    Component.onShownModally obsWorld blankComp (plainView (some 0))
        (.str "hello") true
      = .ok (obsWorld,
             { c10InitResult with
               modalContext := some (.str "hello"), closeCallbackSet := true }) :=
  (c10_modal_context obsWorld blankComp (plainView (some 0)) (.str "hello") true).2
    obsWorld c10InitResult (Or.inl rfl) rfl

/-!  Claim C3 — XML-attribute binding precedence. -/

theorem applyParams_ok (c : Component.CompState) (v : Component.ViewState)
    (r : Nat) (hview : c.view = some v) (hctx : v.bindingContext = some r) :
    ∀ (ps : List (String × JSVal)) (w : Component.World) (ctx : Component.BCtx),
      w.heap r = some ctx →
      Component.applyParams w c ps
        = .ok { heap := fupd w.heap r
                  (some ⟨ctx.observable,
                         ps.foldl (fun acc p => storeSet acc p.1 p.2) ctx.data⟩),
                nextRef := w.nextRef } := by
  intro ps
  induction ps with
  | nil =>
    intro w ctx hw
    have h1 : fupd w.heap r (some ctx) = w.heap := fupd_eq_self w.heap r (some ctx) hw
    simp [Component.applyParams, h1]
  | cons q rest ih =>
    intro w ctx hw
    obtain ⟨n, vv⟩ := q
    have hset : Component.set w c n vv
        = .ok (w.writeCtx r { ctx with data := storeSet ctx.data n vv }) := by
      simp [Component.set, hview, hctx, hw]
    have hw2 : (w.writeCtx r { ctx with data := storeSet ctx.data n vv }).heap r
        = some ⟨ctx.observable, storeSet ctx.data n vv⟩ := by
      simp [Component.World.writeCtx, fupd_apply_same]
    simp only [Component.applyParams, hset,
      ih (w.writeCtx r { ctx with data := storeSet ctx.data n vv })
        ⟨ctx.observable, storeSet ctx.data n vv⟩ hw2]
    simp [Component.World.writeCtx, fupd_fupd_same]

/-- Claim C3: first, generally — for every property name the host placed on
the view as an XML attribute (leading-underscore names, `exports` and
xmlns-keys excluded), the value found on the component's binding context
after `init` is the precedence resolution (own-context value, else
parent-context value, else literal view value, first truthy match); second,
the concrete situation of the claim — a view with static attribute
`fieldName` valued `firstName` and dynamic attribute `record` whose
expression the host resolved on the (inherited) parent context: after
binding, `record` holds the parent-context record and `fieldName` the
literal string `firstName`. -/
theorem c3_xml_attribute_precedence :
    (∀ (w : Component.World) (c : Component.CompState)
       (viewArg : Component.ViewState) (r0 : Nat) (ctx0 : Component.BCtx),
       viewArg.bindingContext = some r0 →
       w.heap r0 = some ctx0 →
       viewArg.navigationContext = JSVal.undef →
       (viewArg.props.map Prod.fst).Nodup →
       ∃ w1 c1, Component.init w c viewArg = .ok (w1, c1) ∧
         ∃ v1 r1 ctx1, c1.view = some v1 ∧ v1.bindingContext = some r1 ∧
           w1.heap r1 = some ctx1 ∧
           ∀ name ∈ Component.xmlAttributeParamNames viewArg,
             storeGet ctx1.data name = Component.resolveParam w viewArg name) ∧
    (initCtxLookup (Component.init exampleParentWorld blankComp exampleChildView)
        "record" = some userRecord ∧
     initCtxLookup (Component.init exampleParentWorld blankComp exampleChildView)
        "fieldName" = some (JSVal.str "firstName")) := by
  constructor
  · intro w c viewArg r0 ctx0 hctx hheap hnav hnodup
    have hnamesnodup : (Component.xmlAttributeParamNames viewArg).Nodup :=
      List.Nodup.filter _ hnodup
    set names := Component.xmlAttributeParamNames viewArg with hnames
    set xps := names.map (fun n => (n, Component.resolveParam w viewArg n)) with hxps
    have hxpsfst : xps.map Prod.fst = names := by
      rw [hxps, List.map_map]
      exact List.map_id names
    have hxpsnodup : (xps.map Prod.fst).Nodup := by rw [hxpsfst]; exact hnamesnodup
    have hlookup : ∀ d name, name ∈ names →
        storeGet (xps.foldl (fun acc p => storeSet acc p.1 p.2) d) name
          = Component.resolveParam w viewArg name := by
      intro d name hn
      exact storeGet_foldl_mem xps d name (Component.resolveParam w viewArg name)
        hxpsnodup (List.mem_map_of_mem _ hn)
    by_cases hcond : viewArg.bindingContext = Component.parentCtxValue viewArg
    · -- the context is inherited or undefined: a fresh observable is allocated
      have hsetnew : Component.setNewBindingContextIfNeeded w viewArg
          = ((w.alloc).1, { viewArg with bindingContext := some w.nextRef }) := by
        simp [Component.setNewBindingContextIfNeeded, hcond, Component.World.alloc]
      have hheap1 : (w.alloc).1.heap w.nextRef = some ⟨true, []⟩ := by
        simp [Component.World.alloc, fupd_apply_same]
      have happly := applyParams_ok
        { c with view := some { viewArg with bindingContext := some w.nextRef } }
        { viewArg with bindingContext := some w.nextRef } w.nextRef rfl rfl
        xps (w.alloc).1 ⟨true, []⟩ hheap1
      simp only [hnav] at happly hsetnew
      have hinit : Component.init w c viewArg
          = .ok ({ heap := fupd (w.alloc).1.heap w.nextRef
                     (some ⟨true, xps.foldl (fun acc p => storeSet acc p.1 p.2) []⟩),
                   nextRef := (w.alloc).1.nextRef },
                 Component.hookUpPageLoadedEvent
                   { c with view := some { viewArg with bindingContext := some w.nextRef } }
                   { viewArg with bindingContext := some w.nextRef }) := by
        simp only [Component.init, hnav, hsetnew, ← hxps, ← hnames, happly,
          Component.setNavigationContextProperties, Component.typeofIsObject]
        rfl
      refine ⟨_, _, hinit, { viewArg with bindingContext := some w.nextRef }, w.nextRef,
        ⟨true, xps.foldl (fun acc p => storeSet acc p.1 p.2) []⟩, ?_, rfl, ?_, ?_⟩
      · simp only [Component.hookUpPageLoadedEvent]
        split <;> rfl
      · simp [fupd_apply_same]
      · intro name hn
        exact hlookup [] name hn
    · -- the context is kept
      have hsetnew : Component.setNewBindingContextIfNeeded w viewArg = (w, viewArg) := by
        simp [Component.setNewBindingContextIfNeeded, hcond]
      have happly := applyParams_ok { c with view := some viewArg } viewArg r0 rfl hctx
        xps w ctx0 hheap
      simp only [hnav] at happly hsetnew
      have hinit : Component.init w c viewArg
          = .ok ({ heap := fupd w.heap r0
                     (some ⟨ctx0.observable,
                            xps.foldl (fun acc p => storeSet acc p.1 p.2) ctx0.data⟩),
                   nextRef := w.nextRef },
                 Component.hookUpPageLoadedEvent { c with view := some viewArg } viewArg) := by
        simp only [Component.init, hnav, hsetnew, ← hxps, ← hnames, happly,
          Component.setNavigationContextProperties, Component.typeofIsObject]
        rfl
      refine ⟨_, _, hinit, viewArg, r0,
        ⟨ctx0.observable, xps.foldl (fun acc p => storeSet acc p.1 p.2) ctx0.data⟩,
        ?_, hctx, ?_, ?_⟩
      · simp only [Component.hookUpPageLoadedEvent]
        split <;> rfl
      · simp [fupd_apply_same]
      · intro name hn
        exact hlookup ctx0.data name hn
  · exact ⟨rfl, rfl⟩

/-- Witness for the general half of C3, instantiated at the concrete
parent/child situation of the claim. -/
theorem c3_xml_attribute_precedence_witness :
    ∃ w1 c1,
      Component.init exampleParentWorld blankComp exampleChildView = .ok (w1, c1) ∧
      ∃ v1 r1 ctx1, c1.view = some v1 ∧ v1.bindingContext = some r1 ∧
        w1.heap r1 = some ctx1 ∧
        ∀ name ∈ Component.xmlAttributeParamNames exampleChildView,
          storeGet ctx1.data name
            = Component.resolveParam exampleParentWorld exampleChildView name :=
  c3_xml_attribute_precedence.1 exampleParentWorld blankComp exampleChildView
    0 ⟨true, [("record", userRecord)]⟩ rfl rfl rfl (by decide)

/-!  Claim C6 — N instances for N views, removal on unloaded. -/

theorem seqN_length : ∀ (n a : Nat), (Manager.seqN a n).length = n := by
  intro n
  induction n with
  | zero => intro a; rfl
  | succ n ih => intro a; simp [Manager.seqN, ih]

theorem mem_seqN : ∀ (n a x : Nat), x ∈ Manager.seqN a n ↔ a ≤ x ∧ x < a + n := by
  intro n
  induction n with
  | zero => intro a x; simp [Manager.seqN]
  | succ n ih =>
    intro a x
    simp [Manager.seqN, List.mem_cons, ih (a + 1) x]
    omega

theorem seqN_nodup : ∀ (n a : Nat), (Manager.seqN a n).Nodup := by
  intro n
  induction n with
  | zero => intro a; simp [Manager.seqN]
  | succ n ih =>
    intro a
    refine List.nodup_cons.mpr ⟨?_, ih (a + 1)⟩
    rw [mem_seqN]
    omega

theorem seqN_append_last : ∀ (n a : Nat),
    Manager.seqN a n ++ [a + n] = Manager.seqN a (n + 1) := by
  intro n
  induction n with
  | zero => intro a; simp [Manager.seqN]
  | succ n ih =>
    intro a
    have h := ih (a + 1)
    simp only [Manager.seqN, List.cons_append]
    rw [show a + (n + 1) = a + 1 + n by omega, h]
    rfl

theorem findIdxN_seqN : ∀ (n a x : Nat), a ≤ x → x < a + n →
    Manager.findIdxN (Manager.seqN a n) x = some (x - a) := by
  intro n
  induction n with
  | zero => intro a x h1 h2; omega
  | succ n ih =>
    intro a x h1 h2
    by_cases hx : a = x
    · subst hx
      simp [Manager.seqN, Manager.findIdxN]
    · have hb : (a == x) = false := by simp [hx]
      have h3 : a + 1 ≤ x := by omega
      have hrec := ih (a + 1) x h3 (by omega)
      have hsub : x - (a + 1) + 1 = x - a := by omega
      simp [Manager.seqN, Manager.findIdxN, hb, hrec, hsub]

theorem removeAt_seqN : ∀ (n a x : Nat), a ≤ x → x < a + n →
    Manager.removeAt (Manager.seqN a n) (x - a)
      = (Manager.seqN a n).filter (fun j => j != x) := by
  intro n
  induction n with
  | zero => intro a x h1 h2; omega
  | succ n ih =>
    intro a x h1 h2
    by_cases hx : a = x
    · subst hx
      have hz : a - a = 0 := by omega
      have hfilter : (Manager.seqN (a + 1) n).filter (fun j => j != a)
          = Manager.seqN (a + 1) n := by
        apply List.filter_eq_self.mpr
        intro j hj
        have := (mem_seqN n (a + 1) j).mp hj
        simp
        omega
      simp [Manager.seqN, Manager.removeAt, hz, hfilter]
    · have hb : (a != x) = true := by simp [hx]
      have h3 : a + 1 ≤ x := by omega
      have hsub : x - a = (x - (a + 1)) + 1 := by omega
      simp only [Manager.seqN, hsub, Manager.removeAt, List.filter_cons, hb,
        ih (a + 1) x h3 (by omega)]
      simp

theorem initHookProxy_charState (a : Nat) :
    Manager.initHookProxy false (Manager.charState a) a
      = (Manager.charState (a + 1), a) := by
  have hview : (Manager.charState a).views a = none := by
    simp [Manager.charState]
  have hfound : Manager.getComponentForRootView (Manager.charState a) a = none := by
    simp [Manager.getComponentForRootView, hview]
  have hinst : Manager.seqN 0 a ++ [a] = Manager.seqN 0 (a + 1) := by
    have h := seqN_append_last a 0
    simpa using h
  simp only [Manager.initHookProxy, hfound]
  simp only [Bool.false_eq_true, if_false]
  simp only [Manager.charState]
  simp only [Manager.runInitHook, Manager.setMarkers]
  simp only [if_neg (Nat.lt_irrefl a)]
  simp only [fupd, if_pos rfl]
  simp only [if_true]
  simp only [Prod.mk.injEq, Manager.MState.mk.injEq, hinst]
  refine ⟨⟨trivial, ?_, ?_, ?_, trivial, trivial, trivial, trivial⟩, trivial⟩ <;>
  · funext x
    by_cases hx : x = a
    · subst hx
      simp [fupd, Nat.lt_succ_self]
    · simp only [fupd, if_neg hx]
      by_cases hlt : x < a
      · rw [if_pos hlt, if_pos (by omega)]
      · rw [if_neg hlt, if_neg (by omega)]

theorem processViews_charState : ∀ (n a : Nat),
    Manager.processViews (Manager.charState a) (Manager.seqN a n)
      = Manager.charState (a + n) := by
  intro n
  induction n with
  | zero => intro a; rfl
  | succ n ih =>
    intro a
    have hstep := initHookProxy_charState a
    calc Manager.processViews (Manager.charState a) (Manager.seqN a (n + 1))
        = Manager.processViews (Manager.initHookProxy false (Manager.charState a) a).1
            (Manager.seqN (a + 1) n) := rfl
      _ = Manager.processViews (Manager.charState (a + 1)) (Manager.seqN (a + 1) n) := by
            rw [hstep]
      _ = Manager.charState (a + 1 + n) := ih (a + 1)
      _ = Manager.charState (a + (n + 1)) := by rw [show a + 1 + n = a + (n + 1) by omega]

theorem clean_eq_charState : Manager.clean = Manager.charState 0 := by
  have h1 : (fun c => if c < 0 then some c else none) = (fun _ => (none : Option Nat)) := by
    funext x; simp
  have h2 : (fun r => if r < 0 then some (⟨some r, some r⟩ : Manager.MCtx) else none)
      = (fun _ => (none : Option Manager.MCtx)) := by
    funext x; simp
  simp only [Manager.clean, Manager.charState, Manager.seqN, h1, h2]

theorem processN_charState (N : Nat) : Manager.processN N = Manager.charState N := by
  have h := processViews_charState N 0
  simp only [Manager.processN, clean_eq_charState]
  simpa using h

/-- Claim C6: firing one initialisation lifecycle event for each of `N`
distinct fresh views of a non-singleton class yields `N` distinct component
instances with pairwise distinct identifiers in the instance collection;
subsequently firing the `unloaded` event for view `k` removes exactly that
view's instance (the one whose identifier the view's binding context
carries), leaving the other `N - 1` instances — and every other part of the
state, with no error logged — intact. -/
theorem c6_instances_and_unload (N k : Nat) (hk : k < N) :
    (Manager.processN N).instances.length = N ∧
    (Manager.processN N).instances.Nodup ∧
    Manager.unloadedEvent (Manager.processN N) k
      = { Manager.processN N with
          instances := (Manager.processN N).instances.filter (fun j => j != k) } := by
  rw [processN_charState]
  refine ⟨seqN_length N 0, seqN_nodup N 0, ?_⟩
  have harmed : k ∈ (Manager.charState N).armed := by
    simp only [Manager.charState]
    rw [mem_seqN]
    omega
  have hviews : (Manager.charState N).views k = some k := by
    simp [Manager.charState, hk]
  have hcid : Manager.getComponentId (Manager.charState N) k = some k := by
    simp [Manager.getComponentId, Manager.charState, hk]
  have hfind : Manager.findIdxN (Manager.charState N).instances k = some k := by
    have h := findIdxN_seqN N 0 k (by omega) (by omega)
    simpa using h
  have hremove : Manager.removeAt (Manager.charState N).instances k
      = (Manager.charState N).instances.filter (fun j => j != k) := by
    have h := removeAt_seqN N 0 k (by omega) (by omega)
    simpa using h
  simp only [Manager.unloadedEvent, if_pos harmed, hviews, hcid, hfind, hremove]

/-- Witness for C6 at `N = 3`, `k = 1`. -/
theorem c6_instances_and_unload_witness :
    (Manager.processN 3).instances.length = 3 ∧
    (Manager.processN 3).instances.Nodup ∧
    Manager.unloadedEvent (Manager.processN 3) 1
      = { Manager.processN 3 with
          instances := (Manager.processN 3).instances.filter (fun j => j != 1) } :=
  c6_instances_and_unload 3 1 (by decide)

/-!  Claim C7 — singleton registry invariant. -/

theorem runInitHook_fields (s : Manager.MState) (cid v : Nat) :
    (Manager.runInitHook s cid v).instances = s.instances ∧
    (Manager.runInitHook s cid v).armed = s.armed ∧
    (Manager.runInitHook s cid v).nextUuid = s.nextUuid := by
  simp only [Manager.runInitHook]
  split <;> exact ⟨rfl, rfl, rfl⟩

theorem setMarkers_fields (s : Manager.MState) (cid : Nat) :
    (Manager.setMarkers s cid).instances = s.instances ∧
    (Manager.setMarkers s cid).armed = s.armed ∧
    (Manager.setMarkers s cid).nextUuid = s.nextUuid := by
  simp only [Manager.setMarkers]
  split
  · exact ⟨rfl, rfl, rfl⟩
  · split
    · exact ⟨rfl, rfl, rfl⟩
    · split
      · exact ⟨rfl, rfl, rfl⟩
      · exact ⟨rfl, rfl, rfl⟩

theorem getComponentForRootView_empty (s : Manager.MState) (v : Nat)
    (h : s.instances = []) : Manager.getComponentForRootView s v = none := by
  simp only [Manager.getComponentForRootView]
  cases hv : s.views v with
  | none => simp [hv]
  | some r =>
    simp only [hv]
    cases hc : Manager.getComponentId s r with
    | none => simp [hc]
    | some cid => simp [hc, Manager.findInInstances, h]

theorem getComponentForRootView_single (s : Manager.MState) (v : Nat)
    (h : s.instances = [0]) :
    ∀ c, Manager.getComponentForRootView s v = some c → c = 0 := by
  intro c hc
  simp only [Manager.getComponentForRootView] at hc
  cases hv : s.views v with
  | none => simp [hv] at hc
  | some r =>
    simp only [hv] at hc
    cases hid : Manager.getComponentId s r with
    | none => simp [hid] at hc
    | some cid =>
      simp only [hid, h, Manager.findInInstances] at hc
      by_cases hb : ((0 : Nat) == cid) = true
      · simp [hb] at hc
        omega
      · simp [hb] at hc

theorem stepSingleton_inv (s : Manager.MState) (e : Manager.MEvent)
    (h : Manager.InvSingleton s) :
    Manager.InvSingleton (Manager.stepSingleton s e).1 ∧
    ((Manager.stepSingleton s e).1.instances
       = if s.instances.isEmpty && !(Manager.isInitEv e) then [] else [0]) ∧
    (Manager.isInitEv e = true → (Manager.stepSingleton s e).2 = some 0) ∧
    ((Manager.stepSingleton s e).2 = none ∨ (Manager.stepSingleton s e).2 = some 0) := by
  obtain ⟨harmed, hcase⟩ := h
  cases e with
  | initHook v =>
    rcases hcase with ⟨hi, hu⟩ | ⟨hi, hu⟩
    · -- no instance yet: one is created with identifier 0
      have hfound := getComponentForRootView_empty s v hi
      set s1 : Manager.MState :=
        { s with nextUuid := 1, compView := fupd s.compView 0 (some v),
                 instances := [0], armed := s.armed } with hs1
      have hproxy : Manager.initHookProxy true s v
          = (Manager.setMarkers (Manager.runInitHook s1 0 v) 0, 0) := by
        simp [Manager.initHookProxy, hfound, hi, hu, hs1]
      obtain ⟨hri, hra, hrn⟩ := runInitHook_fields s1 0 v
      obtain ⟨hmi, hma, hmn⟩ := setMarkers_fields (Manager.runInitHook s1 0 v) 0
      have hstep1 : (Manager.stepSingleton s (.initHook v)).1
          = Manager.setMarkers (Manager.runInitHook s1 0 v) 0 := by
        simp [Manager.stepSingleton, hproxy]
      have hinst : (Manager.stepSingleton s (.initHook v)).1.instances = [0] := by
        rw [hstep1, hmi, hri, hs1]
      have harm2 : (Manager.stepSingleton s (.initHook v)).1.armed = [] := by
        rw [hstep1, hma, hra, hs1]
        exact harmed
      have hnu : (Manager.stepSingleton s (.initHook v)).1.nextUuid = 1 := by
        rw [hstep1, hmn, hrn, hs1]
      refine ⟨⟨harm2, Or.inr ⟨hinst, hnu⟩⟩, ?_, ?_, ?_⟩
      · simp [hinst, hi, Manager.isInitEv]
      · intro _; simp [Manager.stepSingleton, hproxy]
      · right; simp [Manager.stepSingleton, hproxy]
    · -- the sole instance 0 already exists and is resolved
      have hproxy : (Manager.initHookProxy true s v) = (Manager.runInitHook s 0 v, 0) := by
        cases hf : Manager.getComponentForRootView s v with
        | none => simp [Manager.initHookProxy, hf, hi]
        | some c =>
          have hc0 := getComponentForRootView_single s v hi c hf
          subst hc0
          simp [Manager.initHookProxy, hf]
      obtain ⟨hri, hra, hrn⟩ := runInitHook_fields s 0 v
      refine ⟨⟨?_, Or.inr ⟨?_, ?_⟩⟩, ?_, ?_, ?_⟩
      · simp [Manager.stepSingleton, hproxy, hra, harmed]
      · simp [Manager.stepSingleton, hproxy, hri, hi]
      · simp [Manager.stepSingleton, hproxy, hrn, hu]
      · simp [Manager.stepSingleton, hproxy, hri, hi, Manager.isInitEv]
      · intro _; simp [Manager.stepSingleton, hproxy]
      · right; simp [Manager.stepSingleton, hproxy]
  | methodCall v =>
    rcases hcase with ⟨hi, hu⟩ | ⟨hi, hu⟩
    · have hstep : Manager.stepSingleton s (.methodCall v)
          = ({ s with errorsLogged := s.errorsLogged + 1 }, none) := by
        simp [Manager.stepSingleton, hi]
      refine ⟨⟨?_, Or.inl ⟨?_, ?_⟩⟩, ?_, ?_, ?_⟩ <;>
        simp [hstep, harmed, hi, hu, Manager.isInitEv]
    · have hstep : Manager.stepSingleton s (.methodCall v) = (s, some 0) := by
        simp [Manager.stepSingleton, hi]
      refine ⟨⟨?_, Or.inr ⟨?_, ?_⟩⟩, ?_, ?_, ?_⟩ <;>
        simp [hstep, harmed, hi, hu, Manager.isInitEv]
  | unloaded v =>
    have hstep : Manager.stepSingleton s (.unloaded v) = (s, none) := by
      simp [Manager.stepSingleton, Manager.unloadedEvent, harmed]
    rcases hcase with ⟨hi, hu⟩ | ⟨hi, hu⟩ <;>
    · refine ⟨⟨?_, ?_⟩, ?_, ?_, ?_⟩ <;>
        simp [hstep, harmed, hi, hu, Manager.isInitEv, Manager.InvSingleton]

theorem runSingleton_inv : ∀ (events : List Manager.MEvent) (s : Manager.MState),
    Manager.InvSingleton s →
    Manager.InvSingleton (Manager.runSingleton s events).1 ∧
    ((Manager.runSingleton s events).1.instances
      = if s.instances.isEmpty && !(events.any Manager.isInitEv) then [] else [0]) ∧
    ∀ p ∈ (Manager.runSingleton s events).2,
      (Manager.isInitEv p.1 = true → p.2 = some 0) ∧
      (p.2 = none ∨ p.2 = some 0) := by
  intro events
  induction events with
  | nil =>
    intro s hs
    refine ⟨hs, ?_, ?_⟩
    · rcases hs.2 with ⟨hi, _⟩ | ⟨hi, _⟩ <;> simp [hi, Manager.runSingleton]
    · intro p hp
      simp [Manager.runSingleton] at hp
  | cons e es ih =>
    intro s hs
    obtain ⟨hinv1, hinst1, hres1, hresor1⟩ := stepSingleton_inv s e hs
    obtain ⟨hinv2, hinst2, htrace⟩ := ih (Manager.stepSingleton s e).1 hinv1
    have hfst : (Manager.runSingleton s (e :: es)).1
        = (Manager.runSingleton (Manager.stepSingleton s e).1 es).1 := by
      simp [Manager.runSingleton]
    have hsnd : (Manager.runSingleton s (e :: es)).2
        = (e, (Manager.stepSingleton s e).2)
            :: (Manager.runSingleton (Manager.stepSingleton s e).1 es).2 := by
      simp [Manager.runSingleton]
    refine ⟨hfst ▸ hinv2, ?_, ?_⟩
    · rw [hfst, hinst2, hinst1]
      cases hie : Manager.isInitEv e <;> cases hise : s.instances.isEmpty <;>
        cases hesa : es.any Manager.isInitEv <;>
          simp [List.any_cons, hie, hise, hesa]
    · intro p hp
      rw [hsnd] at hp
      rcases List.mem_cons.mp hp with hpe | hpr
      · subst hpe
        exact ⟨hres1, hresor1⟩
      · exact htrace p hpr

/-- Claim C7: for a singleton component class, after any sequence of
lifecycle-hook, method and `unloaded` events across arbitrary views, the
instance collection holds exactly one instance as soon as any lifecycle
event has occurred (and none before), so it never exceeds one entry; every
event that resolves a component resolves the same sole instance (identifier
`0`, created lazily by the first lifecycle event — lifecycle hooks always
resolve it, a method call either resolves it or resolves nothing); and a
further `unloaded` event on any view leaves the state completely unchanged,
because no unload listener is ever attached for a singleton class. -/
theorem c7_singleton_sole_instance (events : List Manager.MEvent) :
    ((Manager.runSingleton Manager.clean events).1.instances
        = if events.any Manager.isInitEv then [0] else []) ∧
    (Manager.runSingleton Manager.clean events).1.instances.length ≤ 1 ∧
    (∀ p ∈ (Manager.runSingleton Manager.clean events).2,
        (Manager.isInitEv p.1 = true → p.2 = some 0) ∧
        (p.2 = none ∨ p.2 = some 0)) ∧
    (∀ v, Manager.stepSingleton (Manager.runSingleton Manager.clean events).1
        (Manager.MEvent.unloaded v) = ((Manager.runSingleton Manager.clean events).1, none)) := by
  have hcleaninv : Manager.InvSingleton Manager.clean := ⟨rfl, Or.inl ⟨rfl, rfl⟩⟩
  obtain ⟨hinv, hinst, htrace⟩ := runSingleton_inv events Manager.clean hcleaninv
  have hinst2 : (Manager.runSingleton Manager.clean events).1.instances
      = if events.any Manager.isInitEv then [0] else [] := by
    rw [hinst]
    cases h : events.any Manager.isInitEv <;> simp [Manager.clean]
  refine ⟨hinst2, ?_, htrace, ?_⟩
  · rw [hinst2]
    cases h : events.any Manager.isInitEv <;> simp
  · intro v
    simp [Manager.stepSingleton, Manager.unloadedEvent, hinv.1]

/-- Witness for C7 at a concrete event sequence. -/
theorem c7_singleton_sole_instance_witness :
    ((Manager.runSingleton Manager.clean wEvents).1.instances
        = if wEvents.any Manager.isInitEv then [0] else []) ∧
    (Manager.runSingleton Manager.clean wEvents).1.instances.length ≤ 1 ∧
    (∀ p ∈ (Manager.runSingleton Manager.clean wEvents).2,
        (Manager.isInitEv p.1 = true → p.2 = some 0) ∧
        (p.2 = none ∨ p.2 = some 0)) ∧
    (∀ v, Manager.stepSingleton (Manager.runSingleton Manager.clean wEvents).1
        (Manager.MEvent.unloaded v) = ((Manager.runSingleton Manager.clean wEvents).1, none)) :=
  c7_singleton_sole_instance wEvents
